import Mathlib

/-!
A verification development for the sensor-data replay server
(src/server.js): the record store, the cyclic replay cursor, the
scheduler tick, the broadcast fan-out, the CSV row loader and the
statistics engine are embedded shallowly as Lean definitions, and the
specified properties are settled as theorems about them.

JS numbers are modelled as rationals (ℚ); where the code takes a real
square root (standard deviation, Pearson correlation) the result lives
in ℝ.  A JS value that may be NaN is modelled as `Option ℚ` with `none`
standing for NaN.
-/

namespace IoT

/-- One normalized sensor observation held in the record store
(server.js lines 31-38). -/
structure SensorRecord where
  timestamp : String
  battery_voltage : ℚ
  humidity : ℚ
  motion : ℚ
  temperature : ℚ
  id : String
deriving DecidableEq

/-- Placeholder record used as the default of list lookups that the code
only performs at indices it has already bounds-checked. -/
def defaultRecord : SensorRecord := ⟨"", 0, 0, 0, 0, ""⟩

/-- server.js line 59: `currentDataIndex = (currentDataIndex + 1) % sensorData.length`. -/
def advance (n i : ℕ) : ℕ := (i + 1) % n

/-- `k` repeated scheduler advances of the replay cursor over a store of
size `n`. -/
def advanceIter (n k i : ℕ) : ℕ := Nat.iterate (advance n) k i

theorem advanceIter_eq_mod (n k i : ℕ) (h : i < n) :
    advanceIter n k i = (i + k) % n := by
  induction k with
  | zero => simp [advanceIter, Nat.mod_eq_of_lt h]
  | succ k ih =>
    have hstep : advanceIter n (k + 1) i = advance n (advanceIter n k i) := by
      simp [advanceIter, Function.iterate_succ_apply']
    rw [hstep, ih, advance, Nat.mod_add_mod, ← Nat.add_assoc]

/-- C1: for every non-empty store of size `n` and starting index `i < n`,
`k` advances land on `(i + k) % n`; `n` advances return the cursor to the
original index and to the original record; each single advance computes
`(index + 1) % n`. -/
theorem advance_cycles (store : List SensorRecord) (i k : ℕ) (d : SensorRecord)
    (h : i < store.length) :
    advanceIter store.length k i = (i + k) % store.length ∧
    advanceIter store.length store.length i = i ∧
    store.getD (advanceIter store.length store.length i) d = store.getD i d ∧
    advance store.length i = (i + 1) % store.length := by
  have hn : advanceIter store.length store.length i = i := by
    rw [advanceIter_eq_mod store.length store.length i h, Nat.add_mod_right,
      Nat.mod_eq_of_lt h]
  exact ⟨advanceIter_eq_mod store.length k i h, hn, by rw [hn], rfl⟩

/-- Witness for C1 at a concrete two-record store, index 1, three advances. -/
theorem advance_cycles_witness :
    1 < ([defaultRecord, defaultRecord] : List SensorRecord).length ∧
    (advanceIter ([defaultRecord, defaultRecord] : List SensorRecord).length 3 1 =
        (1 + 3) % ([defaultRecord, defaultRecord] : List SensorRecord).length ∧
      advanceIter ([defaultRecord, defaultRecord] : List SensorRecord).length
        ([defaultRecord, defaultRecord] : List SensorRecord).length 1 = 1 ∧
      ([defaultRecord, defaultRecord] : List SensorRecord).getD
        (advanceIter ([defaultRecord, defaultRecord] : List SensorRecord).length
          ([defaultRecord, defaultRecord] : List SensorRecord).length 1) defaultRecord =
        ([defaultRecord, defaultRecord] : List SensorRecord).getD 1 defaultRecord ∧
      advance ([defaultRecord, defaultRecord] : List SensorRecord).length 1 =
        (1 + 1) % ([defaultRecord, defaultRecord] : List SensorRecord).length) :=
  ⟨by decide, advance_cycles [defaultRecord, defaultRecord] 1 3 defaultRecord (by decide)⟩

/-! ## CSV loader (server.js lines 17-53)

A raw CSV cell is either absent from the row, present but not a decimal
numeral, or a decimal numeral (with leading digits) of some rational
value.  `parseFloat` on such a cell yields NaN (`none`) for the first
two and the value for the third; `parseInt` yields the integer part,
truncated toward zero.  Exotic numerals (hex, exponents, a bare leading
dot) are outside the modelled domain. -/

/-- A raw CSV cell as handed to the row callback at line 30. -/
inductive Raw where
  | missing
  | nonNumeric
  | numeric (q : ℚ)
deriving DecidableEq

/-- `parseFloat` on a raw cell; `none` is NaN. -/
def parseFloat : Raw → Option ℚ
  | .missing => none
  | .nonNumeric => none
  | .numeric q => some q

/-- Truncation toward zero, as `parseInt` performs on a decimal numeral. -/
def jsTrunc (q : ℚ) : ℤ := if 0 ≤ q then ⌊q⌋ else ⌈q⌉

/-- `parseInt` on a raw cell; `none` is NaN. -/
def parseIntRaw : Raw → Option ℚ
  | .missing => none
  | .nonNumeric => none
  | .numeric q => some ((jsTrunc q : ℤ) : ℚ)

/-- One loosely-typed CSV row, holding exactly the alias fields the
loader reads at lines 32-36. -/
structure RawRow where
  time : Option String
  timestamp : Option String
  date : Option String
  battery_voltage : Raw
  battery : Raw
  voltage : Raw
  humidity : Raw
  hum : Raw
  temperature : Raw
  temp : Raw
  motion : Raw
deriving DecidableEq

/-- JS `a || b` on numbers, where `none` stands for NaN: keeps `a` when
it is truthy (a number other than 0), otherwise evaluates to `b`. -/
def jsOrNum (a b : Option ℚ) : Option ℚ :=
  match a with
  | some q => if q = 0 then b else some q
  | none => b

/-- JS `s || fallback` on an optional string: an absent or empty string
is falsy. -/
def jsOrStr (a : Option String) (b : String) : String :=
  match a with
  | some s => if s = "" then b else s
  | none => b

/-- The row the loader builds at lines 31-38, before the NaN check.
Numeric fields are `Option ℚ` because in JS they could in principle be
NaN. -/
structure ProcessedRow where
  timestamp : String
  battery_voltage : Option ℚ
  humidity : Option ℚ
  motion : Option ℚ
  temperature : Option ℚ
  id : String
deriving DecidableEq

/-- Lines 31-38: alias selection and defaulting for one row.  `now` is
the capture time used as the timestamp fallback and `rid` the
environment-supplied random id. -/
def processRow (r : RawRow) (now rid : String) : ProcessedRow :=
  { timestamp := jsOrStr r.time (jsOrStr r.timestamp (jsOrStr r.date now))
    battery_voltage := jsOrNum (parseFloat r.battery_voltage)
      (jsOrNum (parseFloat r.battery) (jsOrNum (parseFloat r.voltage) (some 0)))
    humidity := jsOrNum (parseFloat r.humidity) (jsOrNum (parseFloat r.hum) (some 0))
    motion := jsOrNum (parseIntRaw r.motion) (jsOrNum (parseFloat r.motion) (some 0))
    temperature := jsOrNum (parseFloat r.temperature)
      (jsOrNum (parseFloat r.temp) (some 0))
    id := rid }

/-- Line 40: `!isNaN(temperature) && !isNaN(humidity)`, with `none` = NaN. -/
def keepRow (p : ProcessedRow) : Bool := p.temperature.isSome && p.humidity.isSome

/-- Lines 30-42: process every row and push exactly those passing the
NaN check into the store. -/
def loadAllCSVData (rows : List RawRow) (now rid : String) : List ProcessedRow :=
  (rows.map (fun r => processRow r now rid)).filter keepRow

theorem jsOrNum_isSome (a b : Option ℚ) (hb : b.isSome) : (jsOrNum a b).isSome := by
  cases a with
  | none => exact hb
  | some q =>
    by_cases hq : q = 0
    · simpa [jsOrNum, hq] using hb
    · simp [jsOrNum, hq]

theorem processRow_temperature_isSome (r : RawRow) (now rid : String) :
    (processRow r now rid).temperature.isSome :=
  jsOrNum_isSome _ _ (jsOrNum_isSome _ _ rfl)

theorem processRow_humidity_isSome (r : RawRow) (now rid : String) :
    (processRow r now rid).humidity.isSome :=
  jsOrNum_isSome _ _ (jsOrNum_isSome _ _ rfl)

/-- C10: after alias selection and defaulting, temperature and humidity
are never NaN (the chained defaults end in the literal 0), so the
NaN-based drop check always passes and every row read from the source is
appended to the store. -/
theorem loader_never_drops (rows : List RawRow) (r : RawRow) (now rid : String) :
    (processRow r now rid).temperature.isSome ∧
    (processRow r now rid).humidity.isSome ∧
    keepRow (processRow r now rid) = true ∧
    loadAllCSVData rows now rid = rows.map (fun r => processRow r now rid) := by
  refine ⟨processRow_temperature_isSome r now rid, processRow_humidity_isSome r now rid,
    ?_, ?_⟩
  · simp [keepRow, processRow_temperature_isSome, processRow_humidity_isSome]
  · refine List.filter_eq_self.mpr ?_
    intro p hp
    rcases List.mem_map.mp hp with ⟨r0, _, rfl⟩
    simp [keepRow, processRow_temperature_isSome, processRow_humidity_isSome]

/-- A row whose first battery alias is the numeral `0` and whose second
is the numeral `5`. -/
def zeroAliasRow : RawRow :=
  { time := none, timestamp := none, date := none
    battery_voltage := .numeric 0, battery := .numeric 5, voltage := .missing
    humidity := .numeric 1, hum := .missing
    temperature := .numeric 1, temp := .missing, motion := .missing }

/-- Modelled from the spec: the value of the first present and parseable
alias in priority order, defaulting to 0 when every alias is absent or
unparseable. -/
def specFirstAlias (aliases : List Raw) : ℚ := (aliases.filterMap parseFloat).headD 0

/-- C8 counterexample: on a row whose `battery_voltage` cell is the
numeral 0 and whose `battery` cell is the numeral 5, the first present
alias has value 0, but the loader records 5 — the `||` chain skips a
parsed 0. -/
theorem first_alias_counterexample :
    specFirstAlias [zeroAliasRow.battery_voltage, zeroAliasRow.battery,
        zeroAliasRow.voltage] = 0 ∧
    (processRow zeroAliasRow "now" "id").battery_voltage = some 5 ∧
    (0 : ℚ) ≠ 5 :=
  ⟨rfl, rfl, by norm_num⟩

/-- The value of the first alias whose parse result is truthy (a number
other than 0), else 0. -/
def firstTruthyAlias (aliases : List (Option ℚ)) : ℚ :=
  (((aliases.filterMap id).filter (fun q => decide (q ≠ 0))).headD 0)

/-- The first alias that is a present, non-empty string, else the
fallback. -/
def firstNonEmptyStr (aliases : List (Option String)) (fallback : String) : String :=
  (((aliases.filterMap id).filter (fun s => decide (s ≠ ""))).headD fallback)

theorem jsOrNum_firstTruthy (a : Option ℚ) (rest : List (Option ℚ)) :
    jsOrNum a (some (firstTruthyAlias rest)) = some (firstTruthyAlias (a :: rest)) := by
  cases a with
  | none => simp [jsOrNum, firstTruthyAlias]
  | some q =>
    by_cases hq : q = 0
    · simp [jsOrNum, hq, firstTruthyAlias]
    · simp [jsOrNum, hq, firstTruthyAlias]

theorem jsOrStr_firstNonEmpty (a : Option String) (rest : List (Option String))
    (fallback : String) :
    jsOrStr a (firstNonEmptyStr rest fallback) =
      firstNonEmptyStr (a :: rest) fallback := by
  cases a with
  | none => simp [jsOrStr, firstNonEmptyStr]
  | some s =>
    by_cases hs : s = ""
    · simp [jsOrStr, hs, firstNonEmptyStr]
    · simp [jsOrStr, hs, firstNonEmptyStr]

/-- C8 (amended): each numeric measurement takes the first alias in
priority order whose parsed value is truthy (a number other than 0 and
not NaN) and is 0 when every alias parses to NaN or 0; the timestamp
takes the first present non-empty string alias, else the capture time;
the row is always kept, temperature and humidity being numeric after the
0 default. -/
theorem loader_truthy_alias (r : RawRow) (now rid : String) :
    (processRow r now rid).battery_voltage = some (firstTruthyAlias
      [parseFloat r.battery_voltage, parseFloat r.battery, parseFloat r.voltage]) ∧
    (processRow r now rid).humidity =
      some (firstTruthyAlias [parseFloat r.humidity, parseFloat r.hum]) ∧
    (processRow r now rid).temperature =
      some (firstTruthyAlias [parseFloat r.temperature, parseFloat r.temp]) ∧
    (processRow r now rid).motion =
      some (firstTruthyAlias [parseIntRaw r.motion, parseFloat r.motion]) ∧
    (processRow r now rid).timestamp =
      firstNonEmptyStr [r.time, r.timestamp, r.date] now ∧
    keepRow (processRow r now rid) = true := by
  have base : firstTruthyAlias [] = 0 := rfl
  have baseS : ∀ s, firstNonEmptyStr [] s = s := fun s => rfl
  refine ⟨?_, ?_, ?_, ?_, ?_, ?_⟩
  · show jsOrNum _ (jsOrNum _ (jsOrNum _ (some 0))) = _
    rw [show (some (0 : ℚ)) = some (firstTruthyAlias []) from rfl,
      jsOrNum_firstTruthy, jsOrNum_firstTruthy, jsOrNum_firstTruthy]
  · show jsOrNum _ (jsOrNum _ (some 0)) = _
    rw [show (some (0 : ℚ)) = some (firstTruthyAlias []) from rfl,
      jsOrNum_firstTruthy, jsOrNum_firstTruthy]
  · show jsOrNum _ (jsOrNum _ (some 0)) = _
    rw [show (some (0 : ℚ)) = some (firstTruthyAlias []) from rfl,
      jsOrNum_firstTruthy, jsOrNum_firstTruthy]
  · show jsOrNum _ (jsOrNum _ (some 0)) = _
    rw [show (some (0 : ℚ)) = some (firstTruthyAlias []) from rfl,
      jsOrNum_firstTruthy, jsOrNum_firstTruthy]
  · show jsOrStr _ (jsOrStr _ (jsOrStr _ now)) = _
    rw [show (now : String) = firstNonEmptyStr [] now from rfl,
      jsOrStr_firstNonEmpty, jsOrStr_firstNonEmpty, jsOrStr_firstNonEmpty]
    rfl
  · simp [keepRow, processRow_temperature_isSome, processRow_humidity_isSome]

/-! ## Replay scheduler tick (server.js lines 55-72) -/

/-- The envelope built at lines 62-67: the newly current record spread
together with a capture timestamp, the new index and the record count. -/
structure Envelope where
  record : SensorRecord
  realtime_timestamp : String
  current_index : ℕ
  total_records : ℕ
deriving DecidableEq

/-- The frame handed to the broadcast hub at lines 75-78. -/
structure RealtimeMessage where
  type : String
  data : Envelope
deriving DecidableEq

/-- One tick of the interval callback installed by
`startRealtimeSimulation` (lines 56-71): on an empty store it returns
unchanged and broadcasts nothing; otherwise it advances the cursor and
hands a `realtime_update` frame to the hub.  `now` is the tick's capture
time. -/
def schedulerTick (store : List SensorRecord) (i : ℕ) (now : String) :
    ℕ × Option RealtimeMessage :=
  if store.length = 0 then (i, none)
  else
    let i2 := (i + 1) % store.length
    (i2, some { type := "realtime_update"
                data := { record := store.getD i2 defaultRecord
                          realtime_timestamp := now
                          current_index := i2
                          total_records := store.length } })

/-- C5: a tick on an empty store is a silent skip (cursor unchanged,
nothing broadcast); a tick on a non-empty store advances the cursor
exactly once and hands the hub a `realtime_update` frame carrying the
newly current record, the capture timestamp, the new index and the total
record count. -/
theorem schedulerTick_spec (store : List SensorRecord) (i : ℕ) (now : String) :
    (store = [] → schedulerTick store i now = (i, none)) ∧
    (store ≠ [] →
      (schedulerTick store i now).1 = (i + 1) % store.length ∧
      (schedulerTick store i now).2 = some
        { type := "realtime_update"
          data := { record := store.getD ((i + 1) % store.length) defaultRecord
                    realtime_timestamp := now
                    current_index := (i + 1) % store.length
                    total_records := store.length } }) := by
  constructor
  · intro h
    subst h
    rfl
  · intro h
    have hlen : store.length ≠ 0 := by
      simpa [List.length_eq_zero] using h
    constructor
    · simp [schedulerTick, hlen]
    · simp [schedulerTick, hlen]

/-! ## Broadcast fan-out (server.js lines 74-83)

`broadcastRealtimeData` iterates `realtimeConnections.forEach(client =>
client.res.write(...))` with no error handling: if a write raises, the
`forEach` is interrupted and the exception propagates to the caller; the
registry is only ever shrunk by the close handler at lines 185-188,
never here.  Clients are modelled by their numeric ids and one write by
its outcome `Except String Unit`. -/

/-- What one call of `broadcastRealtimeData` does: which clients the
frame reached, the exception it re-raised if a write threw, and the
registry as the call leaves it. -/
structure BroadcastResult where
  delivered : List ℕ
  err : Option String
  registryAfter : List ℕ
deriving DecidableEq

/-- The `forEach` write loop at lines 80-82: visits clients in
registration order, stops at the first raising write. -/
def broadcastRun (write : ℕ → Except String Unit) : List ℕ → List ℕ × Option String
  | [] => ([], none)
  | c :: rest =>
    match write c with
    | .ok _ =>
      let r := broadcastRun write rest
      (c :: r.1, r.2)
    | .error msg => ([], some msg)

/-- Lines 74-83, as a function of the registered clients and of each
write's outcome. -/
def broadcastRealtimeData (write : ℕ → Except String Unit) (conns : List ℕ) :
    BroadcastResult :=
  { delivered := (broadcastRun write conns).1
    err := (broadcastRun write conns).2
    registryAfter := conns }

/-- Whether a write outcome is a success. -/
def writeOk (e : Except String Unit) : Bool :=
  match e with
  | .ok _ => true
  | .error _ => false

/-- A write function whose write to client 1 raises and succeeds
elsewhere. -/
def failingWrite : ℕ → Except String Unit :=
  fun c => if c = 1 then .error "closed" else .ok ()

/-- C6 counterexample: with registry [1, 2] and a raising write to
client 1, client 2 receives nothing, the exception reaches the caller of
broadcast, and client 1 is still registered afterwards. -/
theorem broadcast_isolation_counterexample :
    broadcastRealtimeData failingWrite [1, 2] =
      { delivered := [], err := some "closed", registryAfter := [1, 2] } ∧
    (2 ∈ (broadcastRealtimeData failingWrite [1, 2]).delivered → False) ∧
    (broadcastRealtimeData failingWrite [1, 2]).err ≠ none ∧
    1 ∈ (broadcastRealtimeData failingWrite [1, 2]).registryAfter := by
  refine ⟨rfl, by decide, by decide, by decide⟩

/-- C6 (amended): a raising delivery failure aborts the fan-out — the
frame reaches exactly the clients iterated before the first failing
write, no later client, and the exception propagates to the caller of
broadcast; the broadcast itself never modifies the registry (a failed
subscriber is removed only by the close handler). -/
theorem broadcast_aborts_on_failure (write : ℕ → Except String Unit) (conns : List ℕ) :
    (broadcastRealtimeData write conns).delivered =
      conns.takeWhile (fun c => writeOk (write c)) ∧
    ((broadcastRealtimeData write conns).err = none ↔
      conns.all (fun c => writeOk (write c)) = true) ∧
    (broadcastRealtimeData write conns).registryAfter = conns := by
  refine ⟨?_, ?_, rfl⟩
  · show (broadcastRun write conns).1 = _
    induction conns with
    | nil => rfl
    | cons c rest ih =>
      rcases hw : write c with msg | u
      · have hp : writeOk (Except.error msg) = false := rfl
        simp [broadcastRun, hw, List.takeWhile_cons, hp]
      · have hp : writeOk (Except.ok u) = true := rfl
        simp only [broadcastRun, hw, List.takeWhile_cons, hp, if_true]
        simp [ih]
  · show (broadcastRun write conns).2 = none ↔ _
    induction conns with
    | nil => simp [broadcastRun]
    | cons c rest ih =>
      rcases hw : write c with msg | u
      · have hp : writeOk (Except.error msg) = false := rfl
        simp [broadcastRun, hw, List.all_cons, hp]
      · have hp : writeOk (Except.ok u) = true := rfl
        simp only [broadcastRun, hw, List.all_cons, hp, Bool.true_and]
        simpa using ih

/-! ## Statistics engine (server.js lines 106-152, 210-237) -/

/-- JS `reduce((a,b) => a+b)` with no initial value: folds the tail onto
the head.  In JS it throws on an empty array; the statistics handler
only reaches it behind the emptiness guard at line 107, so the `[]` case
here is unreachable and its value arbitrary. -/
def jsReduceSum (l : List ℚ) : ℚ :=
  match l with
  | [] => 0
  | a :: r => r.foldl (fun x y => x + y) a

/-- The mean recomputed inside the deviation loop at lines 126 and 132:
`data.reduce((a,b) => a+b) / data.length`. -/
def jsInnerMean (l : List ℚ) : ℚ := jsReduceSum l / l.length

/-- The `std` expression at lines 126 and 132: the square root of the
mean of squared deviations from the (inline recomputed) series mean. -/
noncomputable def jsStd (l : List ℚ) : ℝ :=
  Real.sqrt (((l.foldl (fun sq v => sq + (v - jsInnerMean l) ^ 2) 0) / l.length : ℚ))

/-- `Math.min(...data)` over a non-empty series (the empty case is
behind the handler's guard). -/
def jsMin (l : List ℚ) : ℚ :=
  match l with
  | [] => 0
  | a :: r => r.foldl min a

/-- `Math.max(...data)` over a non-empty series. -/
def jsMax (l : List ℚ) : ℚ :=
  match l with
  | [] => 0
  | a :: r => r.foldl max a

/-- `data.reduce((sum,val) => sum+val, 0) / data.length` (lines 125, 131, 137). -/
def jsAvg (l : List ℚ) : ℚ := (l.foldl (fun s v => s + v) 0) / l.length

/-- `toFixed(1)` as ideal rounding to one decimal place (round half
toward +∞, as ECMAScript specifies). -/
def toFixed1 (q : ℚ) : ℚ := ((round (q * 10) : ℤ) : ℚ) / 10

/-- `toFixed(3)` as ideal rounding to three decimal places. -/
noncomputable def toFixed3 (r : ℝ) : ℝ := ((round (r * 1000) : ℤ) : ℝ) / 1000

/-- Lines 210-223, the run-length scan: `maxLength`/`currentLength`
accumulator loop over the motion series. -/
def findLongestActivationGo (maxLength currentLength : ℕ) : List ℚ → ℕ
  | [] => maxLength
  | m :: rest =>
    if 0 < m then
      findLongestActivationGo (Nat.max maxLength (currentLength + 1)) (currentLength + 1) rest
    else
      findLongestActivationGo maxLength 0 rest

/-- Lines 210-223: length of the longest run of consecutive positive
motion values. -/
def findLongestActivation (l : List ℚ) : ℕ := findLongestActivationGo 0 0 l

/-- `x.reduce((sum,val) => sum+val, 0)` (lines 227-228): the series sum. -/
def jsSum (l : List ℚ) : ℚ := l.foldl (fun s v => s + v) 0

/-- `x.reduce((sum,val) => sum + val*val, 0)` (lines 230-231). -/
def sumSq (l : List ℚ) : ℚ := l.foldl (fun s v => s + v * v) 0

/-- `x.reduce((sum,val,i) => sum + val*y[i], 0)` (line 229).  Out-of-range
access `y[i]` (unequal lengths) yields NaN in JS and lies outside the
modelled domain; `getD` stands in for the in-range accesses. -/
def sumXY (x y : List ℚ) : ℚ :=
  ∑ i ∈ Finset.range x.length, x.getD i 0 * y.getD i 0

/-- Line 233: `n*sum_xy - sum_x*sum_y`. -/
def corrNum (x y : List ℚ) : ℚ := (x.length : ℚ) * sumXY x y - jsSum x * jsSum y

/-- The square under the root at line 234:
`(n*sum_x2 - sum_x*sum_x) * (n*sum_y2 - sum_y*sum_y)` with `n = x.length`. -/
def corrDenomSq (x y : List ℚ) : ℚ :=
  ((x.length : ℚ) * sumSq x - jsSum x * jsSum x) *
    ((x.length : ℚ) * sumSq y - jsSum y * jsSum y)

/-- Lines 225-237.  The JS guard compares `Math.sqrt(denomSq) === 0`,
which for the nonnegative `denomSq` of the modelled (equal-length)
domain is the same as `denomSq = 0`; a negative `denomSq` would give NaN
in JS and lies outside the modelled domain. -/
noncomputable def calculateCorrelation (x y : List ℚ) : ℝ :=
  if corrDenomSq x y = 0 then 0
  else toFixed3 ((corrNum x y : ℝ) / Real.sqrt ((corrDenomSq x y : ℝ)))

/-- Per-series block of the stats object (lines 122-133). -/
structure SeriesStats where
  min : ℚ
  max : ℚ
  avg : ℚ
  std : ℝ

/-- Battery block (lines 134-139). -/
structure BatteryStats where
  min : ℚ
  max : ℚ
  avg : ℚ
  trend : ℚ

/-- Motion block (lines 140-144); `detection_rate` carries the value the
JS `toFixed(1)` string denotes. -/
structure MotionStats where
  total_detections : ℕ
  detection_rate : ℚ
  longest_activation : ℕ

/-- Correlations block (lines 145-148). -/
structure CorrelationStats where
  temp_humidity : ℝ
  temp_battery : ℝ

/-- The stats object assembled at lines 116-149. -/
structure Stats where
  total_records : ℕ
  range_start : String
  range_end : String
  temperature : SeriesStats
  humidity : SeriesStats
  battery_voltage : BatteryStats
  motion : MotionStats
  correlations : CorrelationStats

/-- Lines 111-149: the stats computed over a (non-empty, by the guard at
line 107) store. -/
noncomputable def statsOf (store : List SensorRecord) : Stats :=
  let tempData := store.map (fun d => d.temperature)
  let humidityData := store.map (fun d => d.humidity)
  let batteryData := store.map (fun d => d.battery_voltage)
  let motionData := store.map (fun d => d.motion)
  { total_records := store.length
    range_start := (store.headD defaultRecord).timestamp
    range_end := (store.getLast?.getD defaultRecord).timestamp
    temperature := { min := jsMin tempData, max := jsMax tempData
                     avg := jsAvg tempData, std := jsStd tempData }
    humidity := { min := jsMin humidityData, max := jsMax humidityData
                  avg := jsAvg humidityData, std := jsStd humidityData }
    battery_voltage := { min := jsMin batteryData, max := jsMax batteryData
                         avg := jsAvg batteryData
                         trend := batteryData.getLast?.getD 0 - batteryData.headD 0 }
    motion := { total_detections := (motionData.filter (fun v => decide (0 < v))).length
                detection_rate := toFixed1
                  (((motionData.filter (fun v => decide (0 < v))).length : ℚ) /
                    (motionData.length : ℚ) * 100)
                longest_activation := findLongestActivation motionData }
    correlations := { temp_humidity := calculateCorrelation tempData humidityData
                      temp_battery := calculateCorrelation tempData batteryData } }

/-! ## HTTP-shaped handlers -/

/-- A response body: an error object, a record array, or the stats
object. -/
inductive ApiBody where
  | errorMsg (msg : String)
  | records (l : List SensorRecord)
  | statsBody (s : Stats)

/-- Lines 106-152: `GET /api/statistics` — a 200 error body on an empty
store, else the stats object (also with status 200). -/
noncomputable def statisticsHandler (store : List SensorRecord) : ℕ × ApiBody :=
  if store.length = 0 then (200, .errorMsg "No data available")
  else (200, .statsBody (statsOf store))

/-- JS `Array.prototype.slice` with one (possibly negative) start
argument: the elements from `max(len+start, 0)` (negative start) or
`min(start, len)` (nonnegative start) to the end. -/
def jsSlice (l : List SensorRecord) (start : ℤ) : List SensorRecord :=
  if start < 0 then l.drop (l.length - (-start).toNat)
  else l.drop (min start.toNat l.length)

/-- Lines 191-195: `GET /api/recent-data/:limit` —
`const limit = parseInt(req.params.limit) || 50` then
`sensorData.slice(-limit)`.  The parameter is modelled by its `parseInt`
result, `none` for NaN. -/
def recentDataHandler (store : List SensorRecord) (limitParam : Option ℤ) :
    ℕ × ApiBody :=
  let limit : ℤ :=
    match limitParam with
    | some k => if k = 0 then 50 else k
    | none => 50
  (200, .records (jsSlice store (-limit)))

/-- The last `k` records of the store, in stored order. -/
def lastRecords (store : List SensorRecord) (k : ℕ) : List SensorRecord :=
  store.drop (store.length - k)

/-- C9 counterexample: the path parameter `"0"` parses to the number 0 —
a numeric limit — whose last-0-records result would be `[]`, but
`0 || 50` makes the handler return the last 50 records instead. -/
theorem recentData_zero_counterexample :
    (recentDataHandler [defaultRecord] (some 0)).2 = ApiBody.records [defaultRecord] ∧
    lastRecords [defaultRecord] 0 = [] ∧
    [defaultRecord] ≠ ([] : List SensorRecord) := by
  refine ⟨rfl, rfl, by simp⟩

/-- C9 (amended): a positive numeric limit yields the last `limit`
records in stored order; an absent, non-numeric or zero parameter falls
back to the last 50; a negative limit `k` instead returns the store from
position `-k` on. -/
theorem recentData_spec (store : List SensorRecord) (k : ℤ) :
    (recentDataHandler store none).2 = ApiBody.records (lastRecords store 50) ∧
    (recentDataHandler store (some 0)).2 = ApiBody.records (lastRecords store 50) ∧
    (0 < k → (recentDataHandler store (some k)).2 =
      ApiBody.records (lastRecords store k.toNat)) ∧
    (k < 0 → (recentDataHandler store (some k)).2 =
      ApiBody.records (store.drop (min (-k).toNat store.length))) := by
  have hpos : ∀ m : ℤ, 0 < m →
      (recentDataHandler store (some m)).2 = ApiBody.records (lastRecords store m.toNat) := by
    intro m hm
    have hm0 : m ≠ 0 := by omega
    have hneg : -m < 0 := by omega
    simp only [recentDataHandler, hm0, if_false, jsSlice, hneg, if_true, neg_neg,
      lastRecords]
  refine ⟨?_, ?_, hpos k, ?_⟩
  · simp only [recentDataHandler, jsSlice]
    norm_num [lastRecords]
    rfl
  · simp only [recentDataHandler, if_pos rfl, jsSlice]
    norm_num [lastRecords]
    rfl
  · intro hk
    have hnn : ¬(-k < 0) := by omega
    simp only [recentDataHandler, jsSlice, hnn, if_false,
      show k ≠ 0 by omega, if_false]

/-- C7 counterexample: on an empty store the recent-data endpoint
returns a 200 response whose body is the empty record array, not the
documented "no data" error body that the statistics endpoint returns. -/
theorem recentData_empty_counterexample :
    recentDataHandler [] (some 5) = (200, ApiBody.records []) ∧
    ApiBody.records ([] : List SensorRecord) ≠ ApiBody.errorMsg "No data available" := by
  refine ⟨rfl, fun h => ApiBody.noConfusion h⟩

/-- C7 (amended): on an empty store the statistics endpoint returns an
error body with a non-404 status and the recent-data endpoint returns a
200 response with an empty record array (not an error body); both
handlers are total, so neither throws. -/
theorem emptyStore_handlers (p : Option ℤ) :
    statisticsHandler [] = (200, ApiBody.errorMsg "No data available") ∧
    (statisticsHandler []).1 ≠ 404 ∧
    recentDataHandler [] p = (200, ApiBody.records []) ∧
    (recentDataHandler [] p).2 ≠ ApiBody.errorMsg "No data available" := by
  have hrd : recentDataHandler [] p = (200, ApiBody.records []) := by
    rcases p with _ | k
    · rfl
    · by_cases hk : k = 0
      · subst hk; rfl
      · simp only [recentDataHandler, hk, if_false, jsSlice]
        rcases lt_or_le (-k) 0 with h | h
        · simp [h]
        · simp [not_lt.mpr h]
  refine ⟨rfl, by norm_num [statisticsHandler], hrd, ?_⟩
  rw [hrd]
  exact fun h => ApiBody.noConfusion h

/-! ## Longest activation run (C4)

`lrun` is a structurally recursive restatement of "longest run of
consecutive positive values" (the maximum over suffixes of the length of
the leading positive run); `findLongestActivationGo` is shown to compute
it, and `lrun` is shown to match the run-based specification
`posRunAt`. -/

/-- Length of the leading run of positive values. -/
def leadPos : List ℚ → ℕ
  | [] => 0
  | m :: r => if 0 < m then leadPos r + 1 else 0

/-- Longest run of consecutive positive values: maximum over all
suffixes of the leading-run length. -/
def lrun : List ℚ → ℕ
  | [] => 0
  | m :: r => Nat.max (leadPos (m :: r)) (lrun r)

theorem leadPos_le_lrun (l : List ℚ) : leadPos l ≤ lrun l := by
  cases l with
  | nil => exact Nat.le_refl 0
  | cons m r => exact Nat.le_max_left _ _

theorem findLongestActivationGo_eq (l : List ℚ) :
    ∀ maxL cur, findLongestActivationGo maxL cur l =
      Nat.max maxL
        (if leadPos l = 0 then lrun l else Nat.max (cur + leadPos l) (lrun l)) := by
  induction l with
  | nil => intro maxL cur; simp [findLongestActivationGo, leadPos, lrun]
  | cons m r ih =>
    intro maxL cur
    have hle := leadPos_le_lrun r
    by_cases hm : 0 < m
    · rw [show findLongestActivationGo maxL cur (m :: r) =
          findLongestActivationGo (Nat.max maxL (cur + 1)) (cur + 1) r from by
            simp [findLongestActivationGo, hm], ih]
      simp only [leadPos, lrun, if_pos hm]
      by_cases h0 : leadPos r = 0
      all_goals simp [h0, Nat.max_def]
      all_goals split_ifs <;> omega
    · rw [show findLongestActivationGo maxL cur (m :: r) =
          findLongestActivationGo maxL 0 r from by
            simp [findLongestActivationGo, hm], ih]
      simp only [leadPos, lrun, if_neg hm]
      by_cases h0 : leadPos r = 0
      all_goals simp [h0, Nat.max_def]
      all_goals split_ifs <;> omega

theorem findLongestActivation_eq_lrun (l : List ℚ) :
    findLongestActivation l = lrun l := by
  have hle := leadPos_le_lrun l
  rw [findLongestActivation, findLongestActivationGo_eq l 0 0]
  by_cases h0 : leadPos l = 0
  · simp [h0]
  · simp only [h0, if_false, Nat.zero_add, Nat.max_def]
    split_ifs <;> omega

/-- A run of `k` consecutive positive motion values starting at position
`i` (out-of-range positions read as 0 and are never positive). -/
def posRunAt (l : List ℚ) (i k : ℕ) : Prop := ∀ j, j < k → 0 < l.getD (i + j) 0

theorem posRunAt_nil (i k : ℕ) (h : posRunAt [] i k) : k = 0 := by
  by_contra hk
  have h0 := h 0 (Nat.pos_of_ne_zero hk)
  simp [List.getD] at h0

theorem posRunAt_cons_succ (m : ℚ) (r : List ℚ) (i k : ℕ) :
    posRunAt (m :: r) (i + 1) k ↔ posRunAt r i k := by
  have key : ∀ j, (m :: r).getD (i + 1 + j) 0 = r.getD (i + j) 0 := by
    intro j
    rw [show i + 1 + j = (i + j) + 1 from by omega]
    rfl
  constructor
  · intro h j hj
    have := h j hj
    rwa [key j] at this
  · intro h j hj
    rw [key j]
    exact h j hj

theorem posRunAt_zero_le_leadPos (l : List ℚ) :
    ∀ k, posRunAt l 0 k → k ≤ leadPos l := by
  induction l with
  | nil => intro k h; simp [posRunAt_nil 0 k h]
  | cons m r ih =>
    intro k h
    cases k with
    | zero => exact Nat.zero_le _
    | succ k =>
      have hm : 0 < m := by
        have := h 0 (Nat.succ_pos k)
        simpa using this
      have hrest : posRunAt r 0 k := by
        have := (posRunAt_cons_succ m r 0 k).mp ?_
        · simpa using this
        · intro j hj
          have := h (j + 1) (by omega)
          rwa [show (0 : ℕ) + (j + 1) = 0 + 1 + j from by omega] at this
      have := ih k hrest
      simp only [leadPos, if_pos hm]
      omega

theorem posRunAt_le_lrun (l : List ℚ) : ∀ i k, posRunAt l i k → k ≤ lrun l := by
  induction l with
  | nil => intro i k h; simp [posRunAt_nil i k h]
  | cons m r ih =>
    intro i k h
    cases i with
    | zero =>
      calc k ≤ leadPos (m :: r) := posRunAt_zero_le_leadPos (m :: r) k h
        _ ≤ lrun (m :: r) := leadPos_le_lrun _
    | succ i =>
      have := ih i k ((posRunAt_cons_succ m r i k).mp h)
      calc k ≤ lrun r := this
        _ ≤ lrun (m :: r) := by simp only [lrun]; exact Nat.le_max_right _ _

theorem posRunAt_leadPos (l : List ℚ) : posRunAt l 0 (leadPos l) := by
  induction l with
  | nil => intro j hj; simp [leadPos] at hj
  | cons m r ih =>
    by_cases hm : 0 < m
    · intro j hj
      simp only [leadPos, if_pos hm] at hj
      cases j with
      | zero => simpa using hm
      | succ j =>
        have := ih j (by omega)
        rwa [show (0 : ℕ) + (j + 1) = 0 + j + 1 from by omega, List.getD_cons_succ]
    · intro j hj
      simp [leadPos, hm] at hj

theorem lrun_exists (l : List ℚ) : ∃ i, posRunAt l i (lrun l) := by
  induction l with
  | nil => exact ⟨0, fun j hj => by simp [lrun] at hj⟩
  | cons m r ih =>
    by_cases h : lrun r ≤ leadPos (m :: r)
    · refine ⟨0, ?_⟩
      have : lrun (m :: r) = leadPos (m :: r) := by
        simp only [lrun, Nat.max_def]; split_ifs <;> omega
      rw [this]
      exact posRunAt_leadPos (m :: r)
    · obtain ⟨i, hi⟩ := ih
      refine ⟨i + 1, ?_⟩
      have : lrun (m :: r) = lrun r := by
        simp only [lrun, Nat.max_def]; split_ifs <;> omega
      rw [this]
      exact (posRunAt_cons_succ m r i (lrun r)).mpr hi

/-- C4: `findLongestActivation` returns the length of the longest run of
consecutive entries with motion > 0 — some run of that length exists and
no positive run is longer — and on the motion sequences
[0,1,1,0,1,1,1,0], [0,0,0], [1,1,1] it returns 3, 0 and 3. -/
theorem findLongestActivation_spec (l : List ℚ) :
    (∃ i, posRunAt l i (findLongestActivation l)) ∧
    (∀ i k, posRunAt l i k → k ≤ findLongestActivation l) ∧
    findLongestActivation [0, 1, 1, 0, 1, 1, 1, 0] = 3 ∧
    findLongestActivation [0, 0, 0] = 0 ∧
    findLongestActivation [1, 1, 1] = 3 := by
  refine ⟨?_, ?_, by decide, by decide, by decide⟩
  · rw [findLongestActivation_eq_lrun]
    exact lrun_exists l
  · intro i k h
    rw [findLongestActivation_eq_lrun]
    exact posRunAt_le_lrun l i k h

/-! ## Sum lemmas relating the JS folds to list sums and range sums -/

theorem foldl_add_eq (f : ℚ → ℚ) (l : List ℚ) :
    ∀ a : ℚ, l.foldl (fun s v => s + f v) a = a + (l.map f).sum := by
  induction l with
  | nil => intro a; simp
  | cons x r ih => intro a; simp [ih, add_assoc]

theorem foldl_plus (l : List ℚ) : ∀ a : ℚ, l.foldl (fun x y => x + y) a = a + l.sum := by
  induction l with
  | nil => intro a; simp
  | cons x r ih => intro a; simp [ih, add_assoc]

theorem jsSum_eq (l : List ℚ) : jsSum l = l.sum := by
  have := foldl_plus l 0
  simpa [jsSum] using this

theorem jsReduceSum_eq (l : List ℚ) (h : l ≠ []) : jsReduceSum l = l.sum := by
  match l, h with
  | a :: r, _ => simp [jsReduceSum, foldl_plus r a]

theorem sumSq_eq_map (l : List ℚ) : sumSq l = (l.map (fun v => v * v)).sum := by
  have := foldl_add_eq (fun v => v * v) l 0
  simpa [sumSq] using this

theorem map_sum_eq_range (f : ℚ → ℚ) (l : List ℚ) :
    (l.map f).sum = ∑ i ∈ Finset.range l.length, f (l.getD i 0) := by
  induction l with
  | nil => simp
  | cons a r ih =>
    rw [List.map_cons, List.sum_cons, List.length_cons, Finset.sum_range_succ']
    simp only [List.getD_cons_succ, List.getD_cons_zero]
    rw [ih]
    ring

theorem sum_eq_range (l : List ℚ) :
    l.sum = ∑ i ∈ Finset.range l.length, l.getD i 0 := by
  have := map_sum_eq_range (fun v => v) l
  simpa using this

theorem sumXY_eq_zipWith (x : List ℚ) :
    ∀ y : List ℚ, x.length = y.length →
      sumXY x y = (List.zipWith (fun a b => a * b) x y).sum := by
  induction x with
  | nil => intro y h; simp [sumXY]
  | cons a r ih =>
    intro y h
    match y, h with
    | b :: s, h =>
      have hlen : r.length = s.length := by simpa using h
      rw [List.zipWith_cons_cons, List.sum_cons, ← ih s hlen]
      rw [sumXY, List.length_cons, Finset.sum_range_succ']
      simp only [List.getD_cons_succ, List.getD_cons_zero]
      rw [sumXY]
      ring

/-- The double sum of squared differences: twice the centered second
moment.  This identity yields both the nonnegativity and, for
non-constant data, the positivity of `n·Σv² − (Σv)²`. -/
theorem double_sum_sub_sq (n : ℕ) (f : ℕ → ℚ) :
    ∑ i ∈ Finset.range n, ∑ j ∈ Finset.range n, (f i - f j) * (f i - f j) =
      2 * ((n : ℚ) * (∑ i ∈ Finset.range n, f i * f i) -
        (∑ i ∈ Finset.range n, f i) * (∑ i ∈ Finset.range n, f i)) := by
  have h1 : ∀ i : ℕ, ∑ j ∈ Finset.range n, (f i - f j) * (f i - f j)
      = (n : ℚ) * (f i * f i) - 2 * f i * (∑ j ∈ Finset.range n, f j)
        + ∑ j ∈ Finset.range n, f j * f j := by
    intro i
    have expand : ∀ j ∈ Finset.range n, (f i - f j) * (f i - f j)
        = f i * f i - 2 * f i * f j + f j * f j := fun j _ => by ring
    rw [Finset.sum_congr rfl expand, Finset.sum_add_distrib, Finset.sum_sub_distrib,
      Finset.sum_const, Finset.card_range, nsmul_eq_mul, ← Finset.mul_sum]
  rw [Finset.sum_congr rfl (fun i _ => h1 i), Finset.sum_add_distrib,
    Finset.sum_sub_distrib, ← Finset.mul_sum, Finset.sum_const, Finset.card_range,
    nsmul_eq_mul]
  have h2 : ∑ i ∈ Finset.range n, 2 * f i * (∑ j ∈ Finset.range n, f j)
      = 2 * ((∑ i ∈ Finset.range n, f i) * (∑ j ∈ Finset.range n, f j)) := by
    rw [← Finset.sum_mul, ← Finset.mul_sum, mul_assoc]
  rw [h2]
  ring

/-- The self factor `n·sumSq l − (jsSum l)²` appearing in both the
numerator and the denominator of a self correlation. -/
def selfNum (l : List ℚ) : ℚ := (l.length : ℚ) * sumSq l - jsSum l * jsSum l

theorem selfNum_eq_half_double_sum (l : List ℚ) :
    2 * selfNum l = ∑ i ∈ Finset.range l.length, ∑ j ∈ Finset.range l.length,
      (l.getD i 0 - l.getD j 0) * (l.getD i 0 - l.getD j 0) := by
  rw [double_sum_sub_sq l.length (fun i => l.getD i 0)]
  rw [selfNum, jsSum_eq, sumSq_eq_map, map_sum_eq_range, sum_eq_range]

theorem selfNum_nonneg (l : List ℚ) : 0 ≤ selfNum l := by
  have h := selfNum_eq_half_double_sum l
  have hs : 0 ≤ ∑ i ∈ Finset.range l.length, ∑ j ∈ Finset.range l.length,
      (l.getD i 0 - l.getD j 0) * (l.getD i 0 - l.getD j 0) :=
    Finset.sum_nonneg fun i _ => Finset.sum_nonneg fun j _ => mul_self_nonneg _
  nlinarith [h, hs]

/-- A constant series: all members equal. -/
def ConstList (l : List ℚ) : Prop := ∀ a ∈ l, ∀ b ∈ l, a = b

instance (l : List ℚ) : Decidable (ConstList l) :=
  inferInstanceAs (Decidable (∀ a ∈ l, ∀ b ∈ l, a = b))

theorem getD_mem_of_lt (l : List ℚ) (i : ℕ) (hi : i < l.length) : l.getD i 0 ∈ l := by
  rw [List.getD_eq_getElem?_getD, List.getElem?_eq_getElem hi]
  exact List.getElem_mem _

theorem selfNum_eq_zero_of_const (l : List ℚ) (hc : ConstList l) : selfNum l = 0 := by
  have h := selfNum_eq_half_double_sum l
  have hz : ∑ i ∈ Finset.range l.length, ∑ j ∈ Finset.range l.length,
      (l.getD i 0 - l.getD j 0) * (l.getD i 0 - l.getD j 0) = 0 := by
    refine Finset.sum_eq_zero fun i hi => Finset.sum_eq_zero fun j hj => ?_
    have hij : l.getD i 0 = l.getD j 0 :=
      hc _ (getD_mem_of_lt l i (Finset.mem_range.mp hi)) _
        (getD_mem_of_lt l j (Finset.mem_range.mp hj))
    rw [hij, sub_self, mul_zero]
  nlinarith [h, hz]

theorem selfNum_pos_of_not_const (l : List ℚ) (hc : ¬ ConstList l) : 0 < selfNum l := by
  have h := selfNum_eq_half_double_sum l
  simp only [ConstList, not_forall] at hc
  obtain ⟨a, ha, b, hb, hab⟩ := hc
  obtain ⟨ia, hia⟩ := List.mem_iff_get.mp ha
  obtain ⟨ib, hib⟩ := List.mem_iff_get.mp hb
  have hga : l.getD ia 0 = a := by
    rw [List.getD_eq_getElem?_getD, List.getElem?_eq_getElem ia.isLt]
    simpa [List.get_eq_getElem] using hia
  have hgb : l.getD ib 0 = b := by
    rw [List.getD_eq_getElem?_getD, List.getElem?_eq_getElem ib.isLt]
    simpa [List.get_eq_getElem] using hib
  have hterm : 0 < (l.getD ia 0 - l.getD ib 0) * (l.getD ia 0 - l.getD ib 0) := by
    rw [hga, hgb]
    have : a - b ≠ 0 := sub_ne_zero.mpr hab
    exact mul_self_pos.mpr this
  have hinner : ∀ i ∈ Finset.range l.length,
      0 ≤ ∑ j ∈ Finset.range l.length,
        (l.getD i 0 - l.getD j 0) * (l.getD i 0 - l.getD j 0) :=
    fun i _ => Finset.sum_nonneg fun j _ => mul_self_nonneg _
  have hpos : 0 < ∑ i ∈ Finset.range l.length, ∑ j ∈ Finset.range l.length,
      (l.getD i 0 - l.getD j 0) * (l.getD i 0 - l.getD j 0) := by
    refine Finset.sum_pos' hinner ⟨ia, Finset.mem_range.mpr ia.isLt, ?_⟩
    refine Finset.sum_pos' (fun j _ => mul_self_nonneg _) ⟨ib, Finset.mem_range.mpr ib.isLt, hterm⟩
  nlinarith [h, hpos]

/-! ## Pearson correlation (C2) -/

/-- The Pearson coefficient exactly as the spec words it:
`(n·Σxy − Σx·Σy) / sqrt((n·Σx² − (Σx)²)·(n·Σy² − (Σy)²))` rounded to
three decimal places, and exactly 0 when the denominator is 0. -/
noncomputable def pearsonSpec (x y : List ℚ) : ℝ :=
  if Real.sqrt ((((x.length : ℚ) * (x.map (fun v => v ^ 2)).sum - x.sum ^ 2) *
      ((x.length : ℚ) * (y.map (fun v => v ^ 2)).sum - y.sum ^ 2) : ℚ)) = 0 then 0
  else toFixed3
    ((((x.length : ℚ) * (List.zipWith (fun a b => a * b) x y).sum - x.sum * y.sum : ℚ) : ℝ) /
      Real.sqrt ((((x.length : ℚ) * (x.map (fun v => v ^ 2)).sum - x.sum ^ 2) *
        ((x.length : ℚ) * (y.map (fun v => v ^ 2)).sum - y.sum ^ 2) : ℚ)))

theorem sumSq_eq_map_sq (l : List ℚ) : sumSq l = (l.map (fun v => v ^ 2)).sum := by
  rw [sumSq_eq_map]
  simp [pow_two]

theorem corrDenomSq_eq (x y : List ℚ) :
    corrDenomSq x y = ((x.length : ℚ) * (x.map (fun v => v ^ 2)).sum - x.sum ^ 2) *
      ((x.length : ℚ) * (y.map (fun v => v ^ 2)).sum - y.sum ^ 2) := by
  rw [corrDenomSq, sumSq_eq_map_sq, sumSq_eq_map_sq, jsSum_eq, jsSum_eq]
  ring

theorem corrDenomSq_eq_selfNum (x y : List ℚ) (hxy : x.length = y.length) :
    corrDenomSq x y = selfNum x * selfNum y := by
  rw [corrDenomSq, selfNum, selfNum, hxy]

theorem corrNum_eq_spec (x y : List ℚ) (hxy : x.length = y.length) :
    corrNum x y =
      (x.length : ℚ) * (List.zipWith (fun a b => a * b) x y).sum - x.sum * y.sum := by
  rw [corrNum, sumXY_eq_zipWith x y hxy, jsSum_eq, jsSum_eq]

theorem sumXY_self (x : List ℚ) : sumXY x x = sumSq x := by
  rw [sumSq_eq_map, map_sum_eq_range]
  rfl

theorem corrNum_self (x : List ℚ) : corrNum x x = selfNum x := by
  rw [corrNum, selfNum, sumXY_self]

theorem corrDenomSq_self (x : List ℚ) : corrDenomSq x x = selfNum x * selfNum x := rfl

theorem toFixed3_one : toFixed3 1 = 1 := by
  rw [toFixed3, one_mul,
    show ((1000 : ℝ)) = ((1000 : ℤ) : ℝ) from by norm_num, round_intCast]
  norm_num

/-- C2: for equal-length series, `calculateCorrelation` is exactly the
spec's Pearson formula (rounded to three decimals, 0 on a zero
denominator); in particular it returns 0 whenever the square-root
denominator is 0, gives 1.000 for a non-constant series against itself,
and 0 for two constant series. -/
theorem calculateCorrelation_spec (x y : List ℚ) (hxy : x.length = y.length) :
    calculateCorrelation x y = pearsonSpec x y ∧
    (Real.sqrt ((corrDenomSq x y : ℚ)) = 0 → calculateCorrelation x y = 0) ∧
    (¬ ConstList x → calculateCorrelation x x = 1) ∧
    (ConstList x → ConstList y → calculateCorrelation x y = 0) := by
  have hnnQ : (0 : ℚ) ≤ corrDenomSq x y := by
    rw [corrDenomSq_eq_selfNum x y hxy]
    exact mul_nonneg (selfNum_nonneg x) (selfNum_nonneg y)
  have hnnR : (0 : ℝ) ≤ ((corrDenomSq x y : ℚ) : ℝ) := by exact_mod_cast hnnQ
  have hsqrt_zero : Real.sqrt ((corrDenomSq x y : ℚ)) = 0 ↔ corrDenomSq x y = 0 := by
    rw [Real.sqrt_eq_zero']
    constructor
    · intro hle
      have : ((corrDenomSq x y : ℚ) : ℝ) = 0 := le_antisymm hle hnnR
      exact_mod_cast this
    · intro h0
      rw [h0]
      norm_num
  refine ⟨?_, ?_, ?_, ?_⟩
  · rw [calculateCorrelation, pearsonSpec, ← corrDenomSq_eq x y,
      ← corrNum_eq_spec x y hxy]
    by_cases h0 : corrDenomSq x y = 0
    · rw [if_pos h0, if_pos (hsqrt_zero.mpr h0)]
    · rw [if_neg h0, if_neg (fun h => h0 (hsqrt_zero.mp h))]
  · intro h
    rw [calculateCorrelation, if_pos (hsqrt_zero.mp h)]
  · intro hc
    have hpos := selfNum_pos_of_not_const x hc
    have hne : corrDenomSq x x ≠ 0 := by
      rw [corrDenomSq_self]
      exact ne_of_gt (mul_pos hpos hpos)
    rw [calculateCorrelation, if_neg hne, corrNum_self, corrDenomSq_self]
    have hcast : ((selfNum x * selfNum x : ℚ) : ℝ) =
        ((selfNum x : ℚ) : ℝ) * ((selfNum x : ℚ) : ℝ) := by push_cast; ring
    rw [hcast, Real.sqrt_mul_self (by exact_mod_cast hpos.le)]
    have hneR : ((selfNum x : ℚ) : ℝ) ≠ 0 := by
      exact_mod_cast ne_of_gt hpos
    rw [div_self hneR, toFixed3_one]
  · intro hcx hcy
    have h0 : corrDenomSq x y = 0 := by
      rw [corrDenomSq_eq_selfNum x y hxy, selfNum_eq_zero_of_const x hcx, zero_mul]
    rw [calculateCorrelation, if_pos h0]

/-- Witness for C2 at the concrete series [1,2,4] and [2,3,5]. -/
theorem calculateCorrelation_spec_witness :
    ([1, 2, 4] : List ℚ).length = ([2, 3, 5] : List ℚ).length ∧
    (calculateCorrelation [1, 2, 4] [2, 3, 5] = pearsonSpec [1, 2, 4] [2, 3, 5] ∧
      (Real.sqrt ((corrDenomSq [1, 2, 4] [2, 3, 5] : ℚ)) = 0 →
        calculateCorrelation [1, 2, 4] [2, 3, 5] = 0) ∧
      (¬ ConstList [1, 2, 4] → calculateCorrelation [1, 2, 4] [1, 2, 4] = 1) ∧
      (ConstList [1, 2, 4] → ConstList [2, 3, 5] →
        calculateCorrelation [1, 2, 4] [2, 3, 5] = 0)) :=
  ⟨rfl, calculateCorrelation_spec [1, 2, 4] [2, 3, 5] rfl⟩

/-! ## Population standard deviation (C3) -/

/-- Population standard deviation as the spec words it: sum of squared
deviations from the arithmetic mean of the same series, divided by `n`,
then square-rooted. -/
noncomputable def popStdSpec (l : List ℚ) : ℝ :=
  Real.sqrt ((((l.map (fun v => (v - l.sum / l.length) ^ 2)).sum) / l.length : ℚ))

theorem jsInnerMean_eq (l : List ℚ) (h : l ≠ []) : jsInnerMean l = l.sum / l.length := by
  rw [jsInnerMean, jsReduceSum_eq l h]

theorem jsStd_eq_popStd (l : List ℚ) (h : l ≠ []) : jsStd l = popStdSpec l := by
  rw [jsStd, popStdSpec, jsInnerMean_eq l h]
  have hfold := foldl_add_eq (fun v => (v - l.sum / l.length) ^ 2) l 0
  simp only [] at hfold
  rw [hfold, zero_add]

theorem jsStd_replicate (c : ℚ) (n : ℕ) (hn : 0 < n) :
    jsStd (List.replicate n c) = 0 := by
  have hne : List.replicate n c ≠ [] := by
    simp only [← List.length_pos, List.length_replicate]
    exact hn
  have hmean : jsInnerMean (List.replicate n c) = c := by
    rw [jsInnerMean_eq _ hne, List.sum_replicate, List.length_replicate, nsmul_eq_mul,
      mul_div_cancel_left₀]
    exact_mod_cast hn.ne'
  rw [jsStd, hmean]
  have hfold := foldl_add_eq (fun v => (v - c) ^ 2) (List.replicate n c) 0
  simp only [] at hfold
  rw [hfold, zero_add, List.map_replicate]
  simp

/-- C3: for a non-empty store, the reported temperature and humidity
`std` equal the population standard deviation of the series (squared
deviations from the arithmetic mean of that same series, divided by `n`,
square-rooted); the std of an all-equal series is exactly 0; and the
handler reports exactly these stats on a non-empty store. -/
theorem statistics_std_spec (store : List SensorRecord) (c : ℚ) (n : ℕ)
    (hs : store ≠ []) (hn : 0 < n) :
    (statsOf store).temperature.std = popStdSpec (store.map (fun d => d.temperature)) ∧
    (statsOf store).humidity.std = popStdSpec (store.map (fun d => d.humidity)) ∧
    statisticsHandler store = (200, ApiBody.statsBody (statsOf store)) ∧
    jsStd (List.replicate n c) = 0 := by
  have ht : store.map (fun d => d.temperature) ≠ [] :=
    fun hm => hs (List.map_eq_nil_iff.mp hm)
  have hh : store.map (fun d => d.humidity) ≠ [] :=
    fun hm => hs (List.map_eq_nil_iff.mp hm)
  refine ⟨?_, ?_, ?_, jsStd_replicate c n hn⟩
  · show jsStd (store.map (fun d => d.temperature)) = _
    exact jsStd_eq_popStd _ ht
  · show jsStd (store.map (fun d => d.humidity)) = _
    exact jsStd_eq_popStd _ hh
  · have hlen : store.length ≠ 0 := by simpa [List.length_eq_zero] using hs
    simp [statisticsHandler, hlen]

/-- Witness for C3 at a concrete one-record store and the constant
series replicate 1 2. -/
theorem statistics_std_spec_witness :
    ([defaultRecord] : List SensorRecord) ≠ [] ∧ 0 < 1 ∧
    ((statsOf [defaultRecord]).temperature.std =
        popStdSpec (([defaultRecord] : List SensorRecord).map (fun d => d.temperature)) ∧
      (statsOf [defaultRecord]).humidity.std =
        popStdSpec (([defaultRecord] : List SensorRecord).map (fun d => d.humidity)) ∧
      statisticsHandler [defaultRecord] =
        (200, ApiBody.statsBody (statsOf [defaultRecord])) ∧
      jsStd (List.replicate 1 (2 : ℚ)) = 0) :=
  ⟨by simp, by norm_num,
    statistics_std_spec [defaultRecord] 2 1 (by simp) (by norm_num)⟩

end IoT
